import Mathlib

/-!
Verification of the reconciliation core of a minimal virtual-DOM library
(source: src/react.js).  The library is dynamically typed JavaScript, so the
embedding models a JavaScript value as an explicit sum `JsVal` and translates
each source function over it.  Machine-level JS concerns that the source never
exercises on the verified paths (NaN, prototype chains, getters) are outside
the model; where a JS construct has a corner the source can reach, the
corresponding constructor or error case is modelled explicitly.

Source functions translated below:
  createElement, getComponentProps, isEmptyNode, isTextNode, isLiteralNode,
  isHtmlNode, isFragmentNode, isFunctionalComponentNode, isValidElement,
  toArray, isEventListener, getListenerName, setElementProp, removeElementProp,
  updateElementProps, expandTree, renderElement, renderString, render,
  computeKey, update.

Thrown JS exceptions are modelled with `Except JsError`; component functions
(arbitrary JS code) are an environment parameter `Env` mapping a function
identity to its behaviour, and recursion through component output is bounded
by fuel that is consumed only at component/thunk invocations, so that
component-free evaluation is fuel-independent.
-/

namespace React

/-- A JavaScript value, as the source's duck-typed code can observe it.
`vfun` carries an identity (JS functions compare by reference), the value of
its non-enumerable `name` property, and its own enumerable properties
(e.g. `defaultProps`). -/
inductive JsVal where
  | vnull
  | vundefined
  | vbool (b : Bool)
  | vnum (n : Int)
  | vstr (s : String)
  | varr (elems : List JsVal)
  | vobj (fields : List (String × JsVal))
  | vfun (id : Nat) (fname : String) (fields : List (String × JsVal))

/-- A thrown JS exception: TypeError (bad member access / call), ReferenceError
(undeclared variable), a user-level throw from a component function, or fuel
exhaustion (standing for non-termination of component recursion, which the
spec leaves as a caller obligation). -/
inductive JsError where
  | typeError
  | refError
  | userThrow (v : JsVal)
  | outOfFuel

/-- Behaviour of the JS functions a vnode tree can reference: function
identity and argument to result or thrown exception. -/
def Env : Type := Nat → JsVal → Except JsError JsVal

/-- `typeof v` -/
def jsTypeof : JsVal → String
  | .vnull => "object"
  | .vundefined => "undefined"
  | .vbool _ => "boolean"
  | .vnum _ => "number"
  | .vstr _ => "string"
  | .varr _ => "object"
  | .vobj _ => "object"
  | .vfun _ _ _ => "function"

/-- `v == null` (loose equality against null). -/
def looseEqNull : JsVal → Bool
  | .vnull => true
  | .vundefined => true
  | _ => false

/-- JS truthiness. -/
def truthy : JsVal → Bool
  | .vnull => false
  | .vundefined => false
  | .vbool b => b
  | .vnum n => n != 0
  | .vstr s => s != ""
  | _ => true

/-- First binding of a key in an object's field list (JS objects have unique
keys; on a duplicated key both reads and writes below consistently use the
first occurrence). -/
def lookupField : List (String × JsVal) → String → Option JsVal
  | [], _ => none
  | (k', w) :: rest, k => if k' == k then some w else lookupField rest k

/-- Property read `v[k]` on a value already known non-nullish (total;
primitives and missing keys give undefined).  The `name` of a function is its
own property. -/
def getPropD : JsVal → String → JsVal
  | .vobj fs, k => (lookupField fs k).getD .vundefined
  | .vfun _ nm fs, k => if k == "name" then .vstr nm else (lookupField fs k).getD .vundefined
  | _, _ => .vundefined

/-- Property read `v[k]` as the source performs it: a TypeError on
null/undefined, otherwise total. -/
def getField (v : JsVal) (k : String) : Except JsError JsVal :=
  if looseEqNull v then .error .typeError else .ok (getPropD v k)

-- JS strict equality `===`.  Primitives compare by value; functions compare
-- by reference identity (their `id`).  Objects and arrays compare by reference
-- in JS; the embedding compares them structurally, which agrees with the source
-- on every path verified here (the source only applies `===`/`Object.is` to
-- primitives and function references).
mutual
def jsStrictEq : JsVal → JsVal → Bool
  | .vnull, .vnull => true
  | .vundefined, .vundefined => true
  | .vbool a, .vbool b => a == b
  | .vnum a, .vnum b => a == b
  | .vstr a, .vstr b => a == b
  | .varr xs, .varr ys => jsStrictEqList xs ys
  | .vobj fs, .vobj gs => jsStrictEqFields fs gs
  | .vfun i _ _, .vfun j _ _ => i == j
  | _, _ => false
def jsStrictEqList : List JsVal → List JsVal → Bool
  | [], [] => true
  | a :: as, b :: bs => jsStrictEq a b && jsStrictEqList as bs
  | _, _ => false
def jsStrictEqFields : List (String × JsVal) → List (String × JsVal) → Bool
  | [], [] => true
  | (k, a) :: as, (l, b) :: bs => k == l && jsStrictEq a b && jsStrictEqFields as bs
  | _, _ => false
end

--
-- helpers
--

/-- `toArray`: `Array.isArray(x) ? x : (x ? [x] : [])` -/
def jsToArray : JsVal → List JsVal
  | .varr xs => xs
  | v => if truthy v then [v] else []

/-- `isEventListener`: `key.startsWith('on')`, spelled over the character
list so that it evaluates by kernel reduction. -/
def isEventListener (key : String) : Bool :=
  key.toList.take 2 == [('o'), ('n')]

/-- ASCII lower-casing of one character (`toLowerCase` on the tail of an
event-prefixed prop key only ever sees ASCII). -/
def charToLower (c : Char) : Char :=
  if (('A') ≤ c && c ≤ ('Z')) then Char.ofNat (c.toNat + 32) else c

/-- `getListenerName`: `key.slice(2).toLowerCase()`, spelled over the
character list so that it evaluates by kernel reduction. -/
def getListenerName (key : String) : String :=
  String.mk ((key.toList.drop 2).map charToLower)

-- String(v): JS stringification as the source's template literals and
-- setAttribute perform it.  An array joins its members with "," (nullish
-- members become empty); a plain object prints "[object Object]"; a function
-- prints its source text, which the model abbreviates to "function <name>()".
mutual
def jsToString : JsVal → String
  | .vnull => "null"
  | .vundefined => "undefined"
  | .vbool b => cond b ("true") ("false")
  | .vnum n => toString n
  | .vstr s => s
  | .varr xs => jsToStringArr xs
  | .vobj _ => "[object Object]"
  | .vfun _ nm _ => "function " ++ nm ++ "()"
def jsToStringArr : List JsVal → String
  | [] => ""
  | [x] => if looseEqNull x then "" else jsToString x
  | x :: rest =>
    (if looseEqNull x then "" else jsToString x) ++ "," ++ jsToStringArr rest
end

--
-- vnode representation
--

/-- One-level flatten `[].concat(...children)`: array arguments are spread,
other arguments are appended as they are. -/
def concatSpread : List JsVal → List JsVal
  | [] => []
  | .varr xs :: rest => xs ++ concatSpread rest
  | x :: rest => x :: concatSpread rest

/-- `createElement(type, props = null, ...children)`: builds
`{ type, props, children: [].concat(...children) || null }`. -/
def createElement (type_ : JsVal) (props : JsVal) (children : List JsVal) : JsVal :=
  let flat := JsVal.varr (concatSpread children)
  .vobj [(("type"), type_), (("props"), props),
         (("children"), if truthy flat then flat else .vnull)]

/-- Write a key into an object's field list: update the first occurrence in
place (JS object spread and assignment keep the key's original position), or
append the key when absent. -/
def setField : List (String × JsVal) → String → JsVal → List (String × JsVal)
  | [], k, w => [(k, w)]
  | (k', w') :: rest, k, w =>
    if k' == k then (k, w) :: rest else (k', w') :: setField rest k w

/-- Spread target update: assign every field of `new` into `acc` in order. -/
def foldSetAll (acc : List (String × JsVal)) (new : List (String × JsVal)) :
    List (String × JsVal) :=
  new.foldl (fun a p => setField a p.1 p.2) acc

/-- Own enumerable properties of a value, as object spread `{...v}` and
`Object.keys` enumerate them: objects and functions give their fields (a
function's `name` is non-enumerable and excluded), arrays and strings give
index-keyed entries, primitives and nullish values give nothing. -/
def spreadFields : JsVal → List (String × JsVal)
  | .vobj fs => fs
  | .vfun _ _ fs => fs
  | .varr xs => xs.enum.map (fun p => (toString p.1, p.2))
  | .vstr s => s.toList.enum.map (fun p => (toString p.1, .vstr (String.singleton p.2)))
  | _ => []

/-- `getComponentProps(vnode)`:
`({...(vnode.type.defaultProps || {}), ...vnode.props, children: vnode.children || props.children})`.
The identifier `props` in the last entry is not declared anywhere in the
module, so when `vnode.children` is falsy the evaluation of `props.children`
throws a ReferenceError; `||` short-circuits this away when `vnode.children`
is truthy (every array is truthy in JS, including the empty array). -/
def getComponentProps (v : JsVal) : Except JsError JsVal :=
  match getField v ("type") with
  | .error e => .error e
  | .ok t =>
    match getField t ("defaultProps") with
    | .error e => .error e
    | .ok dpRaw =>
      let dp := if truthy dpRaw then dpRaw else .vobj []
      let merged := foldSetAll (foldSetAll [] (spreadFields dp))
        (spreadFields (getPropD v ("props")))
      let ch := getPropD v ("children")
      if truthy ch then .ok (.vobj (setField merged ("children") ch))
      else .error .refError

--
-- types (the vnode classifier)
--

/-- `vnode == null || typeof vnode === 'boolean'` -/
def isEmptyNode (v : JsVal) : Bool :=
  looseEqNull v || jsTypeof v == "boolean"

/-- `typeof vnode === 'string' || typeof vnode === 'number'` -/
def isTextNode (v : JsVal) : Bool :=
  jsTypeof v == "string" || jsTypeof v == "number"

/-- `isTextNode(vnode) || isEmptyNode(vnode)` -/
def isLiteralNode (v : JsVal) : Bool :=
  isTextNode v || isEmptyNode v

/-- `vnode && typeof vnode.type === 'string'` (in boolean position). -/
def isHtmlNode (v : JsVal) : Bool :=
  truthy v && jsTypeof (getPropD v "type") == "string"

/-- `Array.isArray(vnode)` -/
def isFragmentNode : JsVal → Bool
  | .varr _ => true
  | _ => false

/-- `vnode && typeof vnode.type === 'function'` (in boolean position). -/
def isFunctionalComponentNode (v : JsVal) : Bool :=
  truthy v && jsTypeof (getPropD v "type") == "function"

/-- `isValidElement`: disjunction of the five kind predicates. -/
def isValidElement (v : JsVal) : Bool :=
  isEmptyNode v || isTextNode v || isHtmlNode v || isFragmentNode v ||
    isFunctionalComponentNode v

--
-- update helpers: computeKey
--

/-- `computeKey(vnode, i)`: the explicit `vnode.props.key` when the whole
access chain is truthy, otherwise a generated string
`__react__.<key>-<i>` where `<key>` is `vnode.type.name || vnode.type` for a
truthy vnode with truthy type, else `typeof vnode`. -/
def computeKey (v : JsVal) (i : Nat) : JsVal :=
  if truthy v && truthy (getPropD v ("props")) &&
      truthy (getPropD (getPropD v ("props")) ("key")) then
    getPropD (getPropD v ("props")) ("key")
  else
    let key :=
      if truthy v && truthy (getPropD v ("type")) then
        (if truthy (getPropD (getPropD v ("type")) ("name")) then
           getPropD (getPropD v ("type")) ("name")
         else getPropD v ("type"))
      else .vstr (jsTypeof v)
    .vstr ("__react__." ++ jsToString key ++ "-" ++ toString i)

--
-- size measure for termination of the tree traversals
--

mutual
def vsize : JsVal → Nat
  | .varr xs => 1 + vsizeList xs
  | .vobj fs => 1 + vsizeFields fs
  | .vfun _ _ fs => 1 + vsizeFields fs
  | _ => 1
def vsizeList : List JsVal → Nat
  | [] => 0
  | a :: rest => 1 + vsize a + vsizeList rest
def vsizeFields : List (String × JsVal) → Nat
  | [] => 0
  | p :: rest => 1 + vsize p.2 + vsizeFields rest
end

theorem vsize_pos (v : JsVal) : 1 ≤ vsize v := by
  cases v <;> simp [vsize] <;> omega

theorem vsize_lookupField (fs : List (String × JsVal)) (k : String) (w : JsVal)
    (h : lookupField fs k = some w) : vsize w + 1 ≤ vsizeFields fs := by
  induction fs with
  | nil => simp [lookupField] at h
  | cons p rest ih =>
    match p with
    | (k', w') =>
      by_cases hk : k' == k
      · simp [lookupField, hk] at h
        subst h
        simp [vsizeFields]
        omega
      · simp [lookupField, hk] at h
        have := ih h
        simp [vsizeFields]
        omega

theorem vsizeList_append (xs ys : List JsVal) :
    vsizeList (xs ++ ys) = vsizeList xs + vsizeList ys := by
  induction xs with
  | nil => simp [vsizeList]
  | cons a rest ih => simp [vsizeList, ih]; omega

theorem vsizeList_jsToArray (w : JsVal) : vsizeList (jsToArray w) ≤ vsize w + 1 := by
  cases w with
  | vnull => simp [jsToArray, truthy, vsizeList]
  | vundefined => simp [jsToArray, truthy, vsizeList]
  | vbool b => cases b <;> simp [jsToArray, truthy, vsizeList, vsize]
  | vnum n =>
    simp only [jsToArray]
    split <;> simp [vsizeList, vsize] <;> omega
  | vstr s =>
    simp only [jsToArray]
    split <;> simp [vsizeList, vsize] <;> omega
  | varr xs => simp [jsToArray, vsize]; omega
  | vobj fs =>
    simp only [jsToArray]
    split <;> simp [vsizeList, vsize] <;> omega
  | vfun fid nm fs =>
    simp only [jsToArray]
    split <;> simp [vsizeList, vsize] <;> omega

theorem vsizeList_children_lt (v : JsVal) :
    vsizeList (jsToArray (getPropD v ("children"))) < vsize v := by
  have hb : ((("children") : String) == (("name") : String)) = false := by decide
  cases v with
  | vobj fs =>
    cases h : lookupField fs ("children") with
    | none => simp [getPropD, h, jsToArray, truthy, vsizeList, vsize]
    | some w =>
      have h1 := vsize_lookupField fs ("children") w h
      have h2 := vsizeList_jsToArray w
      simp only [getPropD, h, Option.getD_some, vsize]
      omega
  | vfun fid nm fs =>
    cases h : lookupField fs ("children") with
    | none => simp [getPropD, hb, h, jsToArray, truthy, vsizeList, vsize]
    | some w =>
      have h1 := vsize_lookupField fs ("children") w h
      have h2 := vsizeList_jsToArray w
      simp only [getPropD, hb, h, Option.getD_some, vsize, if_false, Bool.false_eq_true]
      omega
  | varr xs => simp [getPropD, jsToArray, truthy, vsizeList, vsize]
  | vnull => simp [getPropD, jsToArray, truthy, vsizeList, vsize]
  | vundefined => simp [getPropD, jsToArray, truthy, vsizeList, vsize]
  | vbool b => simp [getPropD, jsToArray, truthy, vsizeList, vsize]
  | vnum n => simp [getPropD, jsToArray, truthy, vsizeList, vsize]
  | vstr s => simp [getPropD, jsToArray, truthy, vsizeList, vsize]

theorem vsizeList_children_varr_lt (v : JsVal) (cs : List JsVal)
    (h : getPropD v ("children") = .varr cs) : vsizeList cs < vsize v := by
  have hlt := vsizeList_children_lt v
  rw [h] at hlt
  simpa [jsToArray] using hlt

--
-- expandTree: (vnode) -> expanded vnode tree
--

-- `expandTree(vnode)`.  The Boolean flag models the source's single
-- `if (typeof vnode === "function") vnode = vnode();` at function entry:
-- `true` at every real call site, `false` for the continuation on the
-- invoked thunk's result (the source does not re-invoke a function result,
-- it falls through to the classification chain).  Fuel is consumed only when
-- a thunk or component function is invoked, so component-free expansion is
-- fuel-independent.  A fuel of zero models the non-termination the spec
-- documents as a caller obligation.
mutual
def expandTree (env : Env) : Nat → Bool → JsVal → Except JsError JsVal
  | fuel, true, .vfun fid fnm ffs =>
    (match fuel with
     | 0 => .error .outOfFuel
     | f + 1 => (env fid .vundefined).bind (fun w => expandTree env f false w))
  | fuel, _, .varr xs =>
    -- an array is neither Empty nor Text, so the source's earlier
    -- `isEmptyNode` / `isTextNode` tests are vacuously false here
    (expandTreeList env fuel xs).map JsVal.varr
  | fuel, _, v =>
    if isEmptyNode v then .ok v
    else if isTextNode v then .ok v
    else if isFunctionalComponentNode v then
      match getPropD v ("type"), fuel with
      | .vfun fid _ _, 0 => .error .outOfFuel
      | .vfun fid _ _, f + 1 =>
        (getComponentProps v).bind (fun p =>
          (env fid p).bind (fun w => expandTree env f true w))
      | _, _ => .error .typeError    -- unreachable under the component guard
    else
      (expandTreeList env fuel (jsToArray (getPropD v ("children")))).map
        (fun ws => .vobj (setField (spreadFields v) ("children") (.varr ws)))
termination_by fuel b v => (fuel, vsize v)
decreasing_by
  all_goals simp_wf
  all_goals
    first
      | exact Prod.Lex.left _ _ (Nat.lt_succ_self _)
      | exact Prod.Lex.right _ (vsizeList_children_lt _)
      | (apply Prod.Lex.right
         simp [vsize, vsizeList]
         omega)
      | (apply Prod.Lex.right
         simp [vsize, vsizeList])
def expandTreeList (env : Env) : Nat → List JsVal → Except JsError (List JsVal)
  | _, [] => .ok []
  | fuel, c :: rest =>
    (expandTree env fuel true c).bind (fun w =>
      (expandTreeList env fuel rest).map (fun ws => w :: ws))
termination_by fuel vs => (fuel, vsizeList vs)
decreasing_by
  all_goals simp_wf
  all_goals apply Prod.Lex.right
  all_goals simp [vsizeList]
  all_goals omega
end

-- A vnode tree containing only Element, Text, Empty and Fragment nodes:
-- no bare function value (zero-argument callable) and no node whose `type`
-- is a function, anywhere reachable by expansion (fragment members and the
-- normalized children of an element).
mutual
def noComp : JsVal → Bool
  | .vfun _ _ _ => false
  | .varr xs => noCompList xs
  | .vobj fs =>
    (match lookupField fs ("type") with
     | some (.vfun _ _ _) => false
     | _ => true) &&
    noCompList (jsToArray (getPropD (.vobj fs) ("children")))
  | _ => true
termination_by v => vsize v
decreasing_by
  all_goals simp_wf
  all_goals
    first
      | exact vsizeList_children_lt _
      | (simp [vsize, vsizeList]
         omega)
      | (simp [vsize, vsizeList])
def noCompList : List JsVal → Bool
  | [] => true
  | c :: rest => noComp c && noCompList rest
termination_by vs => vsizeList vs
decreasing_by
  all_goals simp_wf
  all_goals simp [vsizeList]
  all_goals omega
end

--
-- Prop Reconciler: updateElementProps and the target-node operation log
--

/-- One primitive mutation of a target node, as issued by `setElementProp` /
`removeElementProp`: attribute set/removed, listener attached/detached. -/
inductive DomOp where
  | setAttr (key : String) (value : JsVal)
  | removeAttr (key : String)
  | addListener (event : String) (handler : JsVal)
  | removeListener (event : String) (handler : JsVal)

/-- `setElementProp(el, key, value)` as the op it performs on `el`. -/
def setOp (key : String) (value : JsVal) : DomOp :=
  if isEventListener key then .addListener (getListenerName key) value
  else .setAttr key value

/-- `removeElementProp(el, key, value)` as the op it performs on `el`. -/
def removeOp (key : String) (value : JsVal) : DomOp :=
  if isEventListener key then .removeListener (getListenerName key) value
  else .removeAttr key

/-- `Object.keys(v)`: own enumerable keys in insertion order (a function's
`name` is non-enumerable and excluded; string indices enumerate). -/
def objKeys : JsVal → List String
  | .vobj fs => fs.map Prod.fst
  | .vfun _ _ fs => fs.map Prod.fst
  | .vstr s => s.toList.enum.map (fun p => toString p.1)
  | _ => []

/-- `v.hasOwnProperty(k)` for the values the source queries (plain props
objects). -/
def hasOwn (v : JsVal) (k : String) : Bool :=
  (objKeys v).contains k

-- First pass of updateElementProps: every key of prevProps absent from
-- nextProps is removed.  Each iteration evaluates
-- `nextProps.hasOwnProperty(key)`, which throws a TypeError when nextProps
-- is nullish (the `nextProps = nextProps || {}` coalescing only happens
-- after this pass), before any removal of that iteration is applied.
def removePass (nextProps prevC : JsVal) : List String → Except JsError (List DomOp)
  | [] => .ok []
  | k :: ks =>
    if looseEqNull nextProps then .error .typeError
    else
      (removePass nextProps prevC ks).map (fun rest =>
        (if hasOwn nextProps k then [] else [removeOp k (getPropD prevC k)]) ++ rest)

-- Second pass: every new key, or key whose value changed by `!==`, except
-- `key` and `ref`, is set; a changed event-listener key first detaches the
-- previously bound listener.
def updatePass (nextC prevC : JsVal) : List String → List DomOp
  | [] => []
  | k :: ks =>
    (if (!(hasOwn prevC k) || !(jsStrictEq (getPropD prevC k) (getPropD nextC k)))
        && k != ("key") && k != ("ref") then
      (if isEventListener k && hasOwn prevC k then
        [DomOp.removeListener (getListenerName k) (getPropD prevC k)]
       else []) ++ [setOp k (getPropD nextC k)]
     else []) ++ updatePass nextC prevC ks

/-- `updateElementProps(el, nextProps, prevProps)`: the ordered list of
target-node mutations it applies to `el`, or the TypeError it throws. -/
def updateElementProps (nextProps prevProps : JsVal) : Except JsError (List DomOp) :=
  let prevC := if truthy prevProps then prevProps else .vobj []
  (removePass nextProps prevC (objKeys prevC)).map (fun ops1 =>
    let nextC := if truthy nextProps then nextProps else .vobj []
    ops1 ++ updatePass nextC prevC (objKeys nextC))

--
-- Materializer: renderElement and the target-tree model
--

/-- A materialized target-tree node: comment placeholder, text node, document
fragment, or element with attributes (stringified by setAttribute),
listeners, and children. -/
inductive TNode where
  | comment (text : String)
  | textNode (text : String)
  | fragment (children : List TNode)
  | element (tag : String) (attrs : List (String × String))
      (listeners : List (String × JsVal)) (children : List TNode)

/-- `setAttribute`: set, replacing in place (attribute names are unique). -/
def setAttrL : List (String × String) → String → String → List (String × String)
  | [], k, w => [(k, w)]
  | (k', w') :: rest, k, w =>
    if k' == k then (k, w) :: rest else (k', w') :: setAttrL rest k w

/-- `removeAttribute`. -/
def removeAttrL : List (String × String) → String → List (String × String)
  | [], _ => []
  | (k', w') :: rest, k => if k' == k then rest else (k', w') :: removeAttrL rest k

def listenerPairEq (a b : String × JsVal) : Bool :=
  a.1 == b.1 && jsStrictEq a.2 b.2

/-- `addEventListener`: registering an already-registered (event, handler)
pair is a no-op. -/
def addListenerL (ls : List (String × JsVal)) (e : String) (f : JsVal) :
    List (String × JsVal) :=
  if ls.any (fun p => listenerPairEq p (e, f)) then ls else ls ++ [(e, f)]

/-- `removeEventListener`: detach the matching (event, handler) pair. -/
def removeListenerL : List (String × JsVal) → String → JsVal → List (String × JsVal)
  | [], _, _ => []
  | p :: rest, e, f =>
    if listenerPairEq p (e, f) then rest else p :: removeListenerL rest e f

/-- Apply one op to an element's attribute/listener state. -/
def applyOpAL (al : List (String × String) × List (String × JsVal)) (op : DomOp) :
    List (String × String) × List (String × JsVal) :=
  match op with
  | .setAttr k w => (setAttrL al.1 k (jsToString w), al.2)
  | .removeAttr k => (removeAttrL al.1 k, al.2)
  | .addListener e f => (al.1, addListenerL al.2 e f)
  | .removeListener e f => (al.1, removeListenerL al.2 e f)

def applyOpsAL (ops : List DomOp)
    (al : List (String × String) × List (String × JsVal)) :
    List (String × String) × List (String × JsVal) :=
  ops.foldl applyOpAL al

-- `renderElement(vnode)`: materializes a vnode into a target node.  Entry
-- flag and fuel discipline as in expandTree.  The backRef bookkeeping
-- (el.__vnode / vnode.__ref) mutates host nodes and vnode objects; the
-- produced target tree is modelled here, and the recorded back-references
-- appear as the Container state that update reads.
mutual
def renderElement (env : Env) : Nat → Bool → JsVal → Except JsError TNode
  | fuel, true, .vfun fid _ _ =>
    (match fuel with
     | 0 => .error .outOfFuel
     | f + 1 => (env fid .vundefined).bind (fun w => renderElement env f false w))
  | fuel, _, .varr xs =>
    -- fragments are not real elements in the dom
    (renderElementList env fuel xs).map TNode.fragment
  | fuel, _, v =>
    if isEmptyNode v then .ok (.comment ("(" ++ jsToString v ++ ")"))
    else if isTextNode v then .ok (.textNode (jsToString v))
    else if isFunctionalComponentNode v then
      match getPropD v ("type"), fuel with
      | .vfun fid _ _, 0 => .error .outOfFuel
      | .vfun fid _ _, f + 1 =>
        (getComponentProps v).bind (fun p =>
          (env fid p).bind (fun w => renderElement env f true w))
      | _, _ => .error .typeError    -- unreachable under the component guard
    else
      -- document.createElement(vnode.type) (the tag stringifies), then
      -- updateElementProps(el, vnode.props), then children in order
      (updateElementProps (getPropD v ("props")) .vundefined).bind (fun ops =>
        (renderElementList env fuel (jsToArray (getPropD v ("children")))).map
          (fun ts =>
            let al := applyOpsAL ops ([], [])
            .element (jsToString (getPropD v ("type"))) al.1 al.2 ts))
termination_by fuel b v => (fuel, vsize v)
decreasing_by
  all_goals simp_wf
  all_goals
    first
      | exact Prod.Lex.left _ _ (Nat.lt_succ_self _)
      | exact Prod.Lex.right _ (vsizeList_children_lt _)
      | (apply Prod.Lex.right
         simp [vsize, vsizeList]
         omega)
      | (apply Prod.Lex.right
         simp [vsize, vsizeList])
def renderElementList (env : Env) : Nat → List JsVal → Except JsError (List TNode)
  | _, [] => .ok []
  | fuel, c :: rest =>
    (renderElement env fuel true c).bind (fun t =>
      (renderElementList env fuel rest).map (fun ts => t :: ts))
termination_by fuel vs => (fuel, vsizeList vs)
decreasing_by
  all_goals simp_wf
  all_goals apply Prod.Lex.right
  all_goals simp [vsizeList]
  all_goals omega
end

--
-- render: renders vnode into the DOM container
--

/-- `render(vnode, container)` at its one call site inside the core:
`renderString`'s fragment branch passes the `renderString` function itself as
the container.  `container.innerHTML = ""` and `backRef(container, vnode)`
mutate the function object harmlessly; then `.appendChild` is looked up on
the function (undefined), the argument `renderElement(vnode)` is evaluated,
and calling undefined throws a TypeError (so any exception thrown by the
materialization itself wins). -/
def render (env : Env) (fuel : Nat) (v : JsVal) : Except JsError String :=
  (renderElement env fuel true v).bind (fun _ => .error .typeError)

--
-- renderString: (vnode) -> expands vnode and returns an html string
--

/-- Attribute serialization of `renderString`:
`Object.keys(vnode.props || {})` without the event-prefixed keys, each
rendered `key="value"` (value interpolated unescaped), joined by spaces. -/
def serializeProps (p : JsVal) : String :=
  let pc := if truthy p then p else .vobj []
  String.intercalate (" ")
    (((objKeys pc).filter (fun k => !(isEventListener k))).map
      (fun k => k ++ "=\"" ++ jsToString (getPropD pc k) ++ "\""))

mutual
def renderString (env : Env) : Nat → Bool → JsVal → Except JsError String
  | fuel, true, .vfun fid _ _ =>
    (match fuel with
     | 0 => .error .outOfFuel
     | f + 1 => (env fid .vundefined).bind (fun w => renderString env f false w))
  | fuel, _, .varr xs =>
    -- `return vnode.map((e) => render(e, renderString)).join('\n');`
    (renderStringFragList env fuel xs).map (fun ss => String.intercalate ("\n") ss)
  | fuel, _, v =>
    if isEmptyNode v then .ok ""
    else if isTextNode v then
      -- the source returns the literal itself (string, or a number that any
      -- later string context coerces); modelled as its string coercion
      .ok (jsToString v)
    else if isFunctionalComponentNode v then
      match getPropD v ("type"), fuel with
      | .vfun fid _ _, 0 => .error .outOfFuel
      | .vfun fid _ _, f + 1 =>
        (getComponentProps v).bind (fun p =>
          (env fid p).bind (fun w => renderString env f true w))
      | _, _ => .error .typeError    -- unreachable under the component guard
    else
      match hc : getPropD v ("children") with
      | .varr cs =>
        (renderStringList env fuel cs).map (fun ss =>
          let children := String.intercalate ("\n") ss
          let tag := jsToString (getPropD v ("type"))
          let props := serializeProps (getPropD v ("props"))
          if props != "" then
            "<" ++ tag ++ " " ++ props ++ ">" ++ children ++ "</" ++ tag ++ ">"
          else "<" ++ tag ++ ">" ++ children ++ "</" ++ tag ++ ">")
      | _ => .error .typeError    -- `vnode.children.map` on a non-array throws
termination_by fuel b v => (fuel, vsize v)
decreasing_by
  all_goals simp_wf
  all_goals
    first
      | exact Prod.Lex.left _ _ (Nat.lt_succ_self _)
      | exact Prod.Lex.right _ (vsizeList_children_varr_lt _ _ (by assumption))
      | (apply Prod.Lex.right
         simp [vsize, vsizeList]
         omega)
      | (apply Prod.Lex.right
         simp [vsize, vsizeList])
def renderStringList (env : Env) : Nat → List JsVal → Except JsError (List String)
  | _, [] => .ok []
  | fuel, c :: rest =>
    (renderString env fuel true c).bind (fun s =>
      (renderStringList env fuel rest).map (fun ss => s :: ss))
termination_by fuel vs => (fuel, vsizeList vs)
decreasing_by
  all_goals simp_wf
  all_goals apply Prod.Lex.right
  all_goals simp [vsizeList]
  all_goals omega
def renderStringFragList (env : Env) : Nat → List JsVal → Except JsError (List String)
  | _, [] => .ok []
  | fuel, c :: rest =>
    (render env fuel c).bind (fun s =>
      (renderStringFragList env fuel rest).map (fun ss => s :: ss))
termination_by fuel vs => (fuel, vsizeList vs)
decreasing_by
  all_goals simp_wf
  all_goals apply Prod.Lex.right
  all_goals simp [vsizeList]
  all_goals omega
end

--
-- update: updates a rendered DOM node
--

/-- `x.length` in boolean position (`!children.length`): throws on nullish
values, length of arrays and strings, a `length` field read on objects,
falsy for values without one (a function's arity `length` is not modelled;
the source never reads it). -/
def lenTruthy : JsVal → Except JsError Bool
  | .vnull => .error .typeError
  | .vundefined => .error .typeError
  | .varr xs => .ok (xs.length != 0)
  | .vstr s => .ok (s.length != 0)
  | .vobj fs => .ok (truthy ((lookupField fs ("length")).getD .vundefined))
  | _ => .ok false

/-- The container state `update(node)` reads: `firstChild` is the `__vnode`
property value of `node.childNodes[0]` (`none` when the container has no
child node at all, so that the member access itself throws), and `vnodeBack`
is `node.__vnode` as recorded by `render`'s backRef (undefined when the
container was never rendered). -/
structure Container where
  firstChild : Option JsVal
  vnodeBack : JsVal

/-- Values on which property writes and method calls succeed. -/
def isObjLike : JsVal → Bool
  | .varr _ => true
  | .vobj _ => true
  | .vfun _ _ _ => true
  | _ => false

/-- Apply reconciliation ops to the target node `el` refers to. -/
def applyProps (st : TNode) (ops : List DomOp) : TNode :=
  match st with
  | .element tag attrs ls cs =>
    let al := applyOpsAL ops (attrs, ls)
    .element tag al.1 al.2 cs
  | t => t

/-- `el.innerHTML = ""` -/
def clearChildren : TNode → TNode
  | .element tag attrs ls _ => .element tag attrs ls []
  | .fragment _ => .fragment []
  | t => t

/-- `el.appendChild(t)` -/
def appendChild : TNode → TNode → TNode
  | .element tag attrs ls cs, t => .element tag attrs ls (cs ++ [t])
  | .fragment cs, t => .fragment (cs ++ [t])
  | st, _ => st

/-- `nextChildren.forEach((child) => el.appendChild(renderElement(child)))`:
materialize and append in order; a throwing materialization aborts the loop,
keeping the children appended so far. -/
def appendLoop (env : Env) (fuel : Nat) : List JsVal → TNode → TNode × Option JsError
  | [], st => (st, none)
  | c :: rest, st =>
    match renderElement env fuel true c with
    | .error e => (st, some e)
    | .ok t => appendLoop env fuel rest (appendChild st t)

/-- `update(node)`: statement-by-statement transcription.  `st` is the target
node that `prevTree.__ref` refers to (the container's rendered root element);
the result is the state of that node after whatever part of `update` ran,
plus the exception `update` threw, if any. -/
def update (env : Env) (fuel : Nat) (node : Container) (st : TNode) :
    TNode × Option JsError :=
  match node.firstChild with
  | none => (st, some .typeError)   -- node.childNodes[0] is undefined: reading .__vnode throws
  | some prevTree =>
    match expandTree env fuel true node.vnodeBack with
    | .error e => (st, some e)      -- expansion threw; no target mutation has happened yet
    | .ok nextTree =>
      -- console.log({ prevTree, nextTree }) and the window.* assignments are
      -- debug statements with no effect on the target tree
      match getField prevTree ("__ref") with
      | .error e => (st, some e)    -- `prevTree.__ref` on a nullish prevTree
      | .ok el =>
        match getField nextTree ("props") with
        | .error e => (st, some e)  -- `nextTree.props` on a nullish nextTree
        | .ok nextProps =>
          match updateElementProps nextProps (getPropD prevTree ("props")) with
          | .error e => (st, some e)  -- thrown before any removal is applied
          | .ok ops =>
            if !ops.isEmpty && !isObjLike el then (st, some .typeError)
              -- applying the first op to a non-node throws
            else
              let st1 := applyProps st ops
              match lenTruthy (getPropD prevTree ("children")) with
              | .error e => (st1, some e)
              | .ok p =>
                match lenTruthy (getPropD nextTree ("children")) with
                | .error e => (st1, some e)
                | .ok n =>
                  if !p && !n then (st1, none)
                  else if p && !n then
                    if isObjLike el then (clearChildren st1, none)
                    else (st1, some .typeError)   -- innerHTML write on a non-node
                  else if !p && n then
                    if isObjLike el then
                      match getPropD nextTree ("children") with
                      | .varr cs => appendLoop env fuel cs st1
                      | _ => (st1, some .typeError)   -- forEach on a non-array
                    else
                      match getPropD nextTree ("children") with
                      | .varr (c :: _) =>
                        match renderElement env fuel true c with
                        | .error e => (st1, some e)
                        | .ok _ => (st1, some .typeError)  -- appendChild on a non-node
                      | _ => (st1, some .typeError)
                  else (st1, none)    -- both nonempty: no child diff in this version

/-- Number of the five kind predicates a value satisfies. -/
def kindCount (v : JsVal) : Nat :=
  (if isEmptyNode v then 1 else 0) + (if isTextNode v then 1 else 0) +
  (if isHtmlNode v then 1 else 0) + (if isFragmentNode v then 1 else 0) +
  (if isFunctionalComponentNode v then 1 else 0)

/-- An environment with no invocable functions: any call runs out of fuel.
Used for concrete evaluations of component-free trees, where it is never
consulted. -/
def envEmpty : Env := fun _ _ => .error .outOfFuel

/-- An environment whose every component function throws, modelling a
component body that raises an exception during expansion. -/
def envThrow : Env := fun _ _ => .error (.userThrow (.vstr ("boom")))

/-- Concrete rendered-root vnode for exercising `update`: empty props, empty
children, and a recorded `__ref` back-reference (an opaque host object). -/
def samplePrev : JsVal :=
  .vobj [(("props"), .vobj []), (("children"), .varr []), (("__ref"), .vobj [])]

/-- Concrete already-expanded element vnode with two text children; expanding
it again reproduces it. -/
def sampleNext : JsVal :=
  .vobj [(("type"), .vstr ("div")), (("props"), .vnull),
         (("children"), .varr [.vstr ("a"), .vstr ("b")])]

/-- Concrete component vnode: its `type` is function 0, its children the
(truthy) empty array. -/
def sampleComp : JsVal :=
  .vobj [(("type"), .vfun 0 ("App") []), (("props"), .vnull),
         (("children"), .varr [])]

--
-- lemmas about field lists
--

theorem truthy_vobj (fs : List (String × JsVal)) : truthy (.vobj fs) = true := rfl

theorem truthy_varr (xs : List JsVal) : truthy (.varr xs) = true := rfl

theorem truthy_vfun (i : Nat) (nm : String) (fs : List (String × JsVal)) :
    truthy (.vfun i nm fs) = true := rfl

theorem lookupField_setField_self (l : List (String × JsVal)) (k : String) (w : JsVal) :
    lookupField (setField l k w) k = some w := by
  induction l with
  | nil => simp [setField, lookupField]
  | cons p rest ih =>
    by_cases h : p.1 == k
    · simp [setField, h, lookupField]
    · simp [setField, h, lookupField, ih]

theorem lookupField_setField_ne (l : List (String × JsVal)) (k k' : String) (w : JsVal)
    (h : (k' == k) = false) :
    lookupField (setField l k w) k' = lookupField l k' := by
  have hne : ¬ (k' = k) := by simpa using h
  have hkk' : (k == k') = false := by
    simp
    exact fun hc => hne hc.symm
  induction l with
  | nil => simp [setField, lookupField, hkk']
  | cons p rest ih =>
    by_cases hpk : p.1 == k
    · have h1 : p.1 = k := by simpa using hpk
      have hp : (p.1 == k') = false := by
        simp [h1]
        exact fun hc => hne hc.symm
      simp [setField, hpk, lookupField, hkk', hp]
    · simp [setField, hpk, lookupField, ih]

theorem setField_setField (l : List (String × JsVal)) (k : String) (a b : JsVal) :
    setField (setField l k a) k b = setField l k b := by
  induction l with
  | nil => simp [setField]
  | cons p rest ih =>
    by_cases h : p.1 == k
    · simp [setField, h]
    · simp [setField, h, ih]

theorem lookupField_foldSetAll (new : List (String × JsVal)) :
    ∀ (acc : List (String × JsVal)) (k : String), (new.map Prod.fst).Nodup →
      lookupField (foldSetAll acc new) k =
        (lookupField new k).elim (lookupField acc k) some := by
  induction new with
  | nil => intro acc k _; simp [foldSetAll, lookupField]
  | cons p rest ih =>
    intro acc k hnd
    have hnd' : (rest.map Prod.fst).Nodup := by
      simpa using hnd.of_cons
    have hstep : foldSetAll acc (p :: rest) = foldSetAll (setField acc p.1 p.2) rest := by
      simp [foldSetAll]
    rw [hstep, ih (setField acc p.1 p.2) k hnd']
    by_cases hk : p.1 == k
    · have hk' : p.1 = k := by simpa using hk
      have hrest : lookupField rest k = none := by
        cases hr : lookupField rest k with
        | none => rfl
        | some w =>
          exfalso
          have hkmem : k ∈ rest.map Prod.fst := by
            clear ih hstep hnd hnd'
            induction rest with
            | nil => simp [lookupField] at hr
            | cons q qs ihq =>
              by_cases hq : q.1 == k
              · have : q.1 = k := by simpa using hq
                simp [this]
              · simp [lookupField, hq] at hr
                simp [ihq hr]
          have := (List.nodup_cons.mp hnd).1
          rw [hk'] at this
          exact this hkmem
      rw [hrest]
      simp [lookupField, hk, hk', lookupField_setField_self]
    · have hne : ¬ (p.1 = k) := by simpa using hk
      have hkp : (k == p.1) = false := by
        simp
        exact fun hc => hne hc.symm
      rw [lookupField_setField_ne acc p.1 k p.2 hkp]
      simp [lookupField, hk]

--
-- unfolding lemmas for the tree traversals
--

theorem expandTree_literal (env : Env) (fuel : Nat) (b : Bool) (v : JsVal)
    (h : isLiteralNode v = true) : expandTree env fuel b v = .ok v := by
  cases v <;>
    simp [isLiteralNode, isTextNode, isEmptyNode, looseEqNull, jsTypeof] at h <;>
    cases b <;> rw [expandTree.eq_def] <;>
    simp [isEmptyNode, isTextNode, looseEqNull, jsTypeof]

theorem expandTree_varr (env : Env) (fuel : Nat) (b : Bool) (xs : List JsVal) :
    expandTree env fuel b (.varr xs) = (expandTreeList env fuel xs).map JsVal.varr := by
  cases b <;> rw [expandTree.eq_def]

theorem expandTree_element (env : Env) (fuel : Nat) (b : Bool)
    (fs : List (String × JsVal))
    (hcomp : isFunctionalComponentNode (.vobj fs) = false) :
    expandTree env fuel b (.vobj fs) =
      (expandTreeList env fuel (jsToArray (getPropD (.vobj fs) ("children")))).map
        (fun ws => .vobj (setField fs ("children") (.varr ws))) := by
  cases b <;> rw [expandTree.eq_def] <;>
    simp [isEmptyNode, isTextNode, looseEqNull, jsTypeof, hcomp, spreadFields]

theorem expandTree_component (env : Env) (fuel : Nat) (b : Bool)
    (fs : List (String × JsVal)) (fid : Nat) (fnm : String)
    (ffs : List (String × JsVal))
    (hty : lookupField fs ("type") = some (.vfun fid fnm ffs)) :
    expandTree env (fuel + 1) b (.vobj fs) =
      (getComponentProps (.vobj fs)).bind (fun p =>
        (env fid p).bind (fun w => expandTree env fuel true w)) := by
  cases b <;> rw [expandTree.eq_def] <;>
    simp [isEmptyNode, isTextNode, looseEqNull, jsTypeof,
          isFunctionalComponentNode, truthy, getPropD, hty]

theorem expandTreeList_nil (env : Env) (fuel : Nat) :
    expandTreeList env fuel [] = .ok [] := by
  rw [expandTreeList.eq_def]

theorem expandTreeList_cons (env : Env) (fuel : Nat) (c : JsVal) (rest : List JsVal) :
    expandTreeList env fuel (c :: rest) =
      (expandTree env fuel true c).bind (fun w =>
        (expandTreeList env fuel rest).map (fun ws => w :: ws)) := by
  rw [expandTreeList.eq_def]

theorem noComp_literal (v : JsVal) (h : isLiteralNode v = true) : noComp v = true := by
  cases v <;>
    simp [isLiteralNode, isTextNode, isEmptyNode, looseEqNull, jsTypeof] at h <;>
    rw [noComp.eq_def]

theorem noComp_varr (xs : List JsVal) : noComp (.varr xs) = noCompList xs := by
  rw [noComp.eq_def]

theorem noComp_vobj (fs : List (String × JsVal)) :
    noComp (.vobj fs) =
      ((match lookupField fs ("type") with
        | some (.vfun _ _ _) => false
        | _ => true) &&
       noCompList (jsToArray (getPropD (.vobj fs) ("children")))) := by
  rw [noComp.eq_def]

theorem noCompList_nil : noCompList [] = true := by
  rw [noCompList.eq_def]

theorem noCompList_cons (c : JsVal) (rest : List JsVal) :
    noCompList (c :: rest) = (noComp c && noCompList rest) := by
  rw [noCompList.eq_def]

theorem renderElement_empty (env : Env) (fuel : Nat) (b : Bool) (v : JsVal)
    (h : isEmptyNode v = true) :
    renderElement env fuel b v = .ok (.comment ("(" ++ jsToString v ++ ")")) := by
  cases v <;> simp [isEmptyNode, looseEqNull, jsTypeof] at h <;>
    cases b <;> rw [renderElement.eq_def] <;>
    simp [isEmptyNode, looseEqNull, jsTypeof]

theorem renderElement_text (env : Env) (fuel : Nat) (b : Bool) (v : JsVal)
    (h : isTextNode v = true) :
    renderElement env fuel b v = .ok (.textNode (jsToString v)) := by
  cases v <;> simp [isTextNode, jsTypeof] at h <;>
    cases b <;> rw [renderElement.eq_def] <;>
    simp [isEmptyNode, isTextNode, looseEqNull, jsTypeof]

theorem renderElement_varr (env : Env) (fuel : Nat) (b : Bool) (xs : List JsVal) :
    renderElement env fuel b (.varr xs) =
      (renderElementList env fuel xs).map TNode.fragment := by
  cases b <;> rw [renderElement.eq_def]

theorem renderElement_element (env : Env) (fuel : Nat) (b : Bool)
    (fs : List (String × JsVal))
    (hcomp : isFunctionalComponentNode (.vobj fs) = false) :
    renderElement env fuel b (.vobj fs) =
      (updateElementProps (getPropD (.vobj fs) ("props")) .vundefined).bind (fun ops =>
        (renderElementList env fuel (jsToArray (getPropD (.vobj fs) ("children")))).map
          (fun ts =>
            let al := applyOpsAL ops ([], [])
            .element (jsToString (getPropD (.vobj fs) ("type"))) al.1 al.2 ts)) := by
  cases b <;> rw [renderElement.eq_def] <;>
    simp [isEmptyNode, isTextNode, looseEqNull, jsTypeof, hcomp]

theorem renderElementList_nil (env : Env) (fuel : Nat) :
    renderElementList env fuel [] = .ok [] := by
  rw [renderElementList.eq_def]

theorem renderElementList_cons (env : Env) (fuel : Nat) (c : JsVal) (rest : List JsVal) :
    renderElementList env fuel (c :: rest) =
      (renderElement env fuel true c).bind (fun t =>
        (renderElementList env fuel rest).map (fun ts => t :: ts)) := by
  rw [renderElementList.eq_def]

theorem renderString_varr (env : Env) (fuel : Nat) (b : Bool) (xs : List JsVal) :
    renderString env fuel b (.varr xs) =
      (renderStringFragList env fuel xs).map (fun ss => String.intercalate ("\n") ss) := by
  cases b <;> rw [renderString.eq_def]

theorem renderStringFragList_cons (env : Env) (fuel : Nat) (c : JsVal)
    (rest : List JsVal) :
    renderStringFragList env fuel (c :: rest) =
      (render env fuel c).bind (fun s =>
        (renderStringFragList env fuel rest).map (fun ss => s :: ss)) := by
  rw [renderStringFragList.eq_def]

/-- Claim C10: for every call `createElement(type, props, ...children)`,
including calls with zero children arguments, the returned vnode's `children`
field is the one-level flatten of the arguments — always an array, never
null: the `|| null` fallback in the constructor is unreachable because
`[].concat(...children)` always produces an array and every array is truthy. -/
theorem createElement_children_always_array (t p : JsVal) (cs : List JsVal) :
    getPropD (createElement t p cs) ("children") = .varr (concatSpread cs) ∧
    getPropD (createElement t p []) ("children") = .varr [] := by
  constructor
  · simp [createElement, getPropD, lookupField, truthy]
  · simp [createElement, getPropD, lookupField, truthy, concatSpread]

/-- Claim C1, counterexample: on a container that was never rendered (no
child node, no `__vnode` back-reference) `update` does not raise any
documented "missing prior render state" precondition error — no such error
exists anywhere in the code.  It throws precisely the unrelated
null-dereference the claim rules out: the TypeError from reading `.__vnode`
off the undefined `node.childNodes[0]`. -/
theorem update_fresh_container_counterexample :
    update envEmpty 1 (Container.mk none .vundefined) (.element ("div") [] [] []) =
      ((.element ("div") [] [] []), some .typeError) := by rfl

/-- Claim C1, amended: calling `update` on a container that was never
rendered fails with a caller-visible TypeError — a null-dereference on the
missing prior render state — rather than silently doing nothing; it is not
the documented precondition error the claim describes.  Both never-rendered
shapes are covered: no child node at all (the `.__vnode` read throws), and a
pre-existing child with no recorded back-reference (`prevTree` is undefined,
so the later `.__ref` read throws).  In both cases the target is untouched. -/
theorem update_fresh_container_typeError (env : Env) (fuel : Nat) (st : TNode) :
    update env fuel (Container.mk none .vundefined) st = (st, some .typeError) ∧
    update env fuel (Container.mk (some .vundefined) .vundefined) st = (st, some .typeError) := by
  constructor
  · simp [update]
  · simp [update, expandTree_literal, isLiteralNode, isEmptyNode, looseEqNull,
          getField]

/-- Claim C2: `renderToString` on a Fragment does not return the members'
serializations newline-joined.  Its fragment branch reads
`vnode.map((e) => render(e, renderString))` — calling the DOM `render` with
the `renderString` function as the container — so for every fragment whose
first member is a Text node the call materializes the member and then throws
a TypeError (`appendChild` is undefined on a function).  The spec's intent
(`renderString(e)`, newline-join) is clear from the element branch, which
recurses correctly; this is a slip in the code, evaluated here at the failing
input. -/
theorem renderString_fragment_of_texts_throws (env : Env) (fuel : Nat) (s : String)
    (rest : List JsVal) :
    renderString env fuel true (.varr (.vstr s :: rest)) = .error .typeError := by
  rw [renderString_varr, renderStringFragList_cons]
  have hr : render env fuel (.vstr s) = .error .typeError := by
    simp [render, renderElement_text, isTextNode, jsTypeof, Except.bind]
  rw [hr]
  rfl

/-- Claim C5, counterexample: for a Component vnode whose `children` field is
absent, `getComponentProps` does not produce the documented merge at all: the
entry `children: vnode.children || props.children` evaluates the undeclared
identifier `props` and throws a ReferenceError. -/
theorem getComponentProps_missing_children_counterexample :
    getComponentProps (.vobj [(("type"), .vfun 0 ("F") []), (("props"), .vobj [])]) =
      .error .refError := by rfl

/-- Claim C5, amended: for every Component vnode whose `children` field is
truthy (every array is truthy in JS, including the empty array), the resolved
props are the shallow merge of the function's defaultProps map, then the
vnode's own props, then a `children` entry, with later sources winning — in
particular the vnode's own children override any inherited `children` key.
When the `children` field is absent or otherwise falsy the code instead
throws a ReferenceError on the undeclared identifier `props`. -/
theorem getComponentProps_resolved_props
    (fields dfs pfs ffs : List (String × JsVal)) (fid : Nat) (fnm : String) (ch : JsVal)
    (hty : lookupField fields ("type") = some (.vfun fid fnm ffs))
    (hdp : lookupField ffs ("defaultProps") = some (.vobj dfs))
    (hp : lookupField fields ("props") = some (.vobj pfs))
    (hch : lookupField fields ("children") = some ch)
    (htr : truthy ch = true)
    (hndd : (dfs.map Prod.fst).Nodup)
    (hndp : (pfs.map Prod.fst).Nodup) :
    ∃ rfs, getComponentProps (.vobj fields) = .ok (.vobj rfs) ∧
      lookupField rfs ("children") = some ch ∧
      (∀ k, (k == ("children")) = false →
        lookupField rfs k = (lookupField pfs k).elim (lookupField dfs k) some) := by
  have h1 : getComponentProps (.vobj fields) =
      .ok (.vobj (setField (foldSetAll (foldSetAll [] dfs) pfs) ("children") ch)) := by
    simp [getComponentProps, getField, looseEqNull, getPropD, hty, hdp, hp, hch, htr,
          truthy_vobj, spreadFields, Except.bind]
  refine ⟨_, h1, lookupField_setField_self _ _ _, ?_⟩
  intro k hk
  rw [lookupField_setField_ne _ _ _ _ hk]
  rw [lookupField_foldSetAll pfs (foldSetAll [] dfs) k hndp]
  rw [lookupField_foldSetAll dfs [] k hndd]
  cases lookupField pfs k <;> cases lookupField dfs k <;> simp [lookupField]

/-- Claim C9, counterexample: `computeKey` does not return the explicit
`props.key` whenever it is present — the code tests the key's truthiness, not
its presence.  For a child whose props carry the present-but-falsy key `""`,
computeKey falls through to the generated namespace key instead of returning
the explicit key. -/
theorem computeKey_falsy_explicit_key_counterexample :
    computeKey (.vobj [(("type"), .vstr ("div")),
        (("props"), .vobj [(("key"), .vstr (""))]), (("children"), .varr [])]) 0 =
      .vstr ("__react__.div-0") ∧
    ¬ (computeKey (.vobj [(("type"), .vstr ("div")),
        (("props"), .vobj [(("key"), .vstr (""))]), (("children"), .varr [])]) 0 =
      .vstr ("")) := by
  constructor
  · rfl
  · intro hc
    rw [show computeKey (.vobj [(("type"), .vstr ("div")),
        (("props"), .vobj [(("key"), .vstr (""))]), (("children"), .varr [])]) 0 =
      .vstr ("__react__.div-0") from rfl] at hc
    injection hc with h
    exact absurd h (by decide)

/-- Claim C9, amended: `computeKey(child, i)` returns the child's explicit
`props.key` whenever that key is present with a truthy value; otherwise, for
a truthy child with truthy `type`, it returns the type's `name` (or, when
the name is falsy, the type value itself — for an element the tag string)
wrapped in the reserved namespace prefix and the index suffix; otherwise it
wraps the runtime category name (`typeof`) with the index. -/
theorem computeKey_cases (v : JsVal) (i : Nat) :
    ((truthy v && truthy (getPropD v ("props")) &&
        truthy (getPropD (getPropD v ("props")) ("key"))) = true →
      computeKey v i = getPropD (getPropD v ("props")) ("key")) ∧
    ((truthy v && truthy (getPropD v ("props")) &&
        truthy (getPropD (getPropD v ("props")) ("key"))) = false →
      (truthy v && truthy (getPropD v ("type"))) = true →
      ((truthy (getPropD (getPropD v ("type")) ("name")) = true →
        computeKey v i = .vstr ("__react__." ++
          jsToString (getPropD (getPropD v ("type")) ("name")) ++ "-" ++ toString i)) ∧
       (truthy (getPropD (getPropD v ("type")) ("name")) = false →
        computeKey v i = .vstr ("__react__." ++
          jsToString (getPropD v ("type")) ++ "-" ++ toString i)))) ∧
    ((truthy v && truthy (getPropD v ("props")) &&
        truthy (getPropD (getPropD v ("props")) ("key"))) = false →
      (truthy v && truthy (getPropD v ("type"))) = false →
      computeKey v i = .vstr ("__react__." ++ jsTypeof v ++ "-" ++ toString i)) := by
  refine ⟨?_, ?_, ?_⟩
  · intro h
    simp [computeKey, h]
  · intro h h2
    constructor
    · intro h3
      simp [computeKey, h, h2, h3]
    · intro h3
      simp [computeKey, h, h2, h3]
  · intro h h2
    simp [computeKey, h, h2, jsToString]

theorem isFunctionalComponentNode_vobj_congr (fs gs : List (String × JsVal))
    (h : lookupField gs ("type") = lookupField fs ("type")) :
    isFunctionalComponentNode (.vobj gs) = isFunctionalComponentNode (.vobj fs) := by
  simp [isFunctionalComponentNode, getPropD, h, truthy]

-- The two-part induction behind expansion idempotence: on a component-free
-- tree, expansion succeeds and its output expands to itself.
theorem expand_idem_aux (env : Env) (fuel : Nat) :
    ∀ n : Nat,
      (∀ v, vsize v ≤ n → noComp v = true →
        ∃ w, expandTree env fuel true v = .ok w ∧ expandTree env fuel true w = .ok w) ∧
      (∀ vs, vsizeList vs ≤ n → noCompList vs = true →
        ∃ ws, expandTreeList env fuel vs = .ok ws ∧
          expandTreeList env fuel ws = .ok ws) := by
  intro n
  induction n using Nat.strong_induction_on with
  | _ n ih =>
    constructor
    · intro v hsize hnc
      cases v with
      | vnull =>
        exact ⟨.vnull, expandTree_literal env fuel true _ (by rfl),
          expandTree_literal env fuel true _ (by rfl)⟩
      | vundefined =>
        exact ⟨.vundefined, expandTree_literal env fuel true _ (by rfl),
          expandTree_literal env fuel true _ (by rfl)⟩
      | vbool b =>
        exact ⟨.vbool b, expandTree_literal env fuel true _ (by cases b <;> rfl),
          expandTree_literal env fuel true _ (by cases b <;> rfl)⟩
      | vnum m =>
        exact ⟨.vnum m, expandTree_literal env fuel true _ (by rfl),
          expandTree_literal env fuel true _ (by rfl)⟩
      | vstr s =>
        exact ⟨.vstr s, expandTree_literal env fuel true _ (by rfl),
          expandTree_literal env fuel true _ (by rfl)⟩
      | vfun fid fnm ffs =>
        rw [noComp.eq_def] at hnc
        simp at hnc
      | varr xs =>
        rw [noComp_varr] at hnc
        have hlt : vsizeList xs < n := by
          simp [vsize] at hsize
          omega
        obtain ⟨ws, hws1, hws2⟩ := (ih (vsizeList xs) hlt).2 xs (le_refl _) hnc
        refine ⟨.varr ws, ?_, ?_⟩
        · rw [expandTree_varr, hws1]
          rfl
        · rw [expandTree_varr, hws2]
          rfl
      | vobj fs =>
        rw [noComp_vobj] at hnc
        rw [Bool.and_eq_true] at hnc
        obtain ⟨htm, hcl⟩ := hnc
        have hcomp : isFunctionalComponentNode (.vobj fs) = false := by
          cases hl : lookupField fs ("type") with
          | none => simp [isFunctionalComponentNode, getPropD, hl, jsTypeof, truthy]
          | some w =>
            cases w <;> simp [isFunctionalComponentNode, getPropD, hl, jsTypeof, truthy]
            rw [hl] at htm
            simp at htm
        have hlt : vsizeList (jsToArray (getPropD (.vobj fs) ("children"))) < n :=
          lt_of_lt_of_le (vsizeList_children_lt _) hsize
        obtain ⟨ws, hws1, hws2⟩ := (ih _ hlt).2 _ (le_refl _) hcl
        refine ⟨.vobj (setField fs ("children") (.varr ws)), ?_, ?_⟩
        · rw [expandTree_element env fuel true fs hcomp, hws1]
          rfl
        · have hty' : lookupField (setField fs ("children") (.varr ws)) ("type") =
              lookupField fs ("type") :=
            lookupField_setField_ne fs ("children") ("type") _ (by decide)
          have hcomp' :
              isFunctionalComponentNode (.vobj (setField fs ("children") (.varr ws))) =
              false :=
            (isFunctionalComponentNode_vobj_congr fs _ hty').trans hcomp
          have hch' : getPropD (.vobj (setField fs ("children") (.varr ws)))
              ("children") = .varr ws := by
            simp [getPropD, lookupField_setField_self]
          rw [expandTree_element env fuel true _ hcomp', hch']
          simp [jsToArray, hws2, setField_setField, Except.map]
    · intro vs hsize hnc
      cases vs with
      | nil =>
        exact ⟨[], by rw [expandTreeList_nil], by rw [expandTreeList_nil]⟩
      | cons c rest =>
        rw [noCompList_cons, Bool.and_eq_true] at hnc
        obtain ⟨hnc1, hnc2⟩ := hnc
        have hlt1 : vsize c < n := by
          simp [vsizeList] at hsize
          omega
        have hlt2 : vsizeList rest < n := by
          have := vsize_pos c
          simp [vsizeList] at hsize
          omega
        obtain ⟨w, hw1, hw2⟩ := (ih (vsize c) hlt1).1 c (le_refl _) hnc1
        obtain ⟨ws, hws1, hws2⟩ := (ih (vsizeList rest) hlt2).2 rest (le_refl _) hnc2
        refine ⟨w :: ws, ?_, ?_⟩
        · rw [expandTreeList_cons, hw1]
          simp [Except.bind, hws1, Except.map]
        · rw [expandTreeList_cons, hw2]
          simp [Except.bind, hws2, Except.map]

/-- Claim C4: expansion is idempotent.  For every vnode tree containing only
Element, Text, Empty and Fragment nodes (no Component node and no
zero-argument callable anywhere expansion reaches), expanding the expansion
yields the same tree as expanding once. -/
theorem expandTree_idempotent (env : Env) (fuel : Nat) (v : JsVal)
    (h : noComp v = true) :
    (expandTree env fuel true v).bind (expandTree env fuel true) =
      expandTree env fuel true v := by
  obtain ⟨w, h1, h2⟩ := (expand_idem_aux env fuel (vsize v)).1 v (le_refl _) h
  rw [h1]
  simpa [Except.bind] using h2

-- appendLoop agrees with materializing the whole list first when every
-- materialization succeeds: the children are appended in order.
theorem appendLoop_ok (env : Env) (fuel : Nat) :
    ∀ (cs : List JsVal) (st : TNode) (ts : List TNode),
      renderElementList env fuel cs = .ok ts →
      appendLoop env fuel cs st = (ts.foldl appendChild st, none) := by
  intro cs
  induction cs with
  | nil =>
    intro st ts h
    rw [renderElementList_nil] at h
    injection h with h
    subst h
    simp [appendLoop]
  | cons c rest ihm =>
    intro st ts h
    rw [renderElementList_cons] at h
    cases hc : renderElement env fuel true c with
    | error e =>
      rw [hc] at h
      simp [Except.bind] at h
    | ok t =>
      rw [hc] at h
      cases hrest : renderElementList env fuel rest with
      | error e =>
        rw [hrest] at h
        simp [Except.bind, Except.map] at h
      | ok ts' =>
        rw [hrest] at h
        simp [Except.bind, Except.map] at h
        subst h
        simp [appendLoop, hc]
        rw [ihm (appendChild st t) ts' hrest]

/-- Claim C6: after root prop reconciliation, `update` applies exactly the
documented child-list cases: both children sequences empty → no child
mutation; previous nonempty and next empty → clear all target children;
previous empty and next nonempty → materialize and append each next child in
order; both nonempty → no element-by-element child diff or patch at all (the
target's children are left exactly as they were). -/
theorem update_child_cases (env : Env) (fuel : Nat) (c : Container) (st : TNode)
    (prevTree nextTree el nextProps : JsVal) (ops : List DomOp) (pcs ncs : List JsVal)
    (h1 : c.firstChild = some prevTree)
    (h2 : expandTree env fuel true c.vnodeBack = .ok nextTree)
    (h3 : getField prevTree ("__ref") = .ok el)
    (h4 : isObjLike el = true)
    (h5 : getField nextTree ("props") = .ok nextProps)
    (h6 : updateElementProps nextProps (getPropD prevTree ("props")) = .ok ops)
    (h7 : getPropD prevTree ("children") = .varr pcs)
    (h8 : getPropD nextTree ("children") = .varr ncs) :
    (pcs = [] → ncs = [] → update env fuel c st = (applyProps st ops, none)) ∧
    (pcs ≠ [] → ncs = [] →
      update env fuel c st = (clearChildren (applyProps st ops), none)) ∧
    (pcs = [] → ∀ ts, renderElementList env fuel ncs = .ok ts →
      update env fuel c st = (ts.foldl appendChild (applyProps st ops), none)) ∧
    (pcs ≠ [] → ncs ≠ [] → update env fuel c st = (applyProps st ops, none)) := by
  cases c with
  | mk fc vb =>
    simp only [Container.firstChild] at h1
    subst h1
    simp only [Container.vnodeBack] at h2
    refine ⟨?_, ?_, ?_, ?_⟩
    · intro hp hn
      subst hp
      subst hn
      simp [update, h2, h3, h5, h6, h4, h7, h8, lenTruthy]
    · intro hp hn
      subst hn
      have hplen : (pcs.length != 0) = true := by
        cases pcs with
        | nil => exact absurd rfl hp
        | cons a l => simp
      simp [update, h2, h3, h5, h6, h4, h7, h8, lenTruthy, hplen]
    · intro hp ts hts
      subst hp
      cases ncs with
      | nil =>
        rw [renderElementList_nil] at hts
        injection hts with hts
        subst hts
        simp [update, h2, h3, h5, h6, h4, h7, h8, lenTruthy]
      | cons a l =>
        simp [update, h2, h3, h5, h6, h4, h7, h8, lenTruthy]
        rw [appendLoop_ok env fuel (a :: l) (applyProps st ops) ts hts]
    · intro hp hn
      have hplen : (pcs.length != 0) = true := by
        cases pcs with
        | nil => exact absurd rfl hp
        | cons a l => simp
      have hnlen : (ncs.length != 0) = true := by
        cases ncs with
        | nil => exact absurd rfl hn
        | cons a l => simp
      simp [update, h2, h3, h5, h6, h4, h7, h8, lenTruthy, hplen, hnlen]

/-- Claim C7: `update` is atomic on expansion failure.  For every container
with a rendered child, if re-expanding the container's vnode throws (in
particular when a component function throws), the exception propagates
unmodified to the caller and the previously materialized target tree is left
completely unmutated — no prop change and no child change — because the
re-expansion statement completes before any target mutation begins. -/
theorem update_atomic_on_expansion_throw (env : Env) (fuel : Nat) (c : Container)
    (st : TNode) (prevTree : JsVal) (e : JsError)
    (h1 : c.firstChild = some prevTree)
    (h2 : expandTree env fuel true c.vnodeBack = .error e) :
    update env fuel c st = (st, some e) := by
  cases c with
  | mk fc vb =>
    simp only [Container.firstChild] at h1
    subst h1
    simp only [Container.vnodeBack] at h2
    simp [update, h2]

/-- Claim C8: prop reconciliation swaps a changed event listener exactly once.
Given prevProps with listener `f` under `onClick` and nextProps with `g`,
with `f` not identical (`===`) to `g`, `updateElementProps` issues exactly
the two ops "detach f from click" then "attach g to click", in that order;
and when the handler reference is unchanged it issues no op at all (the
listener is neither removed nor re-added). -/
theorem updateElementProps_listener_swap :
    (∀ f g : JsVal, jsStrictEq f g = false →
      updateElementProps (.vobj [(("onClick"), g)]) (.vobj [(("onClick"), f)]) =
        .ok [.removeListener ("click") f, .addListener ("click") g]) ∧
    (∀ f : JsVal, jsStrictEq f f = true →
      updateElementProps (.vobj [(("onClick"), f)]) (.vobj [(("onClick"), f)]) =
        .ok []) := by
  constructor
  · intro f g h
    have e1 : isEventListener ("onClick") = true := rfl
    have e2 : getListenerName ("onClick") = ("click") := rfl
    simp [updateElementProps, removePass, updatePass, objKeys, hasOwn, truthy_vobj,
          looseEqNull, getPropD, lookupField, e1, e2, setOp, removeOp, h, Except.map]
  · intro f h
    simp [updateElementProps, removePass, updatePass, objKeys, hasOwn, truthy_vobj,
          looseEqNull, getPropD, lookupField, h, Except.map]

/-- Claim C3: classification is total and respects precedence on the seven
sample values: each of null, undefined, true, false, 0, "" and "x" satisfies
exactly one of the five kind predicates, and 0 and "" classify as Text, not
Empty. -/
theorem classification_total_on_samples :
    ([JsVal.vnull, JsVal.vundefined, JsVal.vbool true, JsVal.vbool false,
      JsVal.vnum 0, JsVal.vstr "", JsVal.vstr "x"].all
        (fun v => kindCount v == 1)) = true ∧
    isTextNode (JsVal.vnum 0) = true ∧ isEmptyNode (JsVal.vnum 0) = false ∧
    isTextNode (JsVal.vstr "") = true ∧ isEmptyNode (JsVal.vstr "") = false := by
  decide

/-- Witness for C4 at a concrete component-free element tree. -/
theorem expandTree_idempotent_witness :
    noComp (JsVal.vobj [(("type"), .vstr ("div")), (("props"), .vnull),
        (("children"), .varr [.vstr ("a"), .vnull])]) = true ∧
    (expandTree envEmpty 1 true (JsVal.vobj [(("type"), .vstr ("div")),
        (("props"), .vnull), (("children"), .varr [.vstr ("a"), .vnull])])).bind
      (expandTree envEmpty 1 true) =
    expandTree envEmpty 1 true (JsVal.vobj [(("type"), .vstr ("div")),
        (("props"), .vnull), (("children"), .varr [.vstr ("a"), .vnull])]) := by
  have hn : noComp (JsVal.vobj [(("type"), .vstr ("div")), (("props"), .vnull),
      (("children"), .varr [.vstr ("a"), .vnull])]) = true := by
    rw [noComp_vobj]
    simp [lookupField, getPropD, jsToArray, noCompList_cons, noCompList_nil,
          noComp_literal, isLiteralNode, isTextNode, isEmptyNode, jsTypeof,
          looseEqNull, truthy]
  exact ⟨hn, expandTree_idempotent envEmpty 1 _ hn⟩

/-- Witness for C5 at a concrete component vnode with defaultProps carrying
both an overridden key and an inherited `children` key. -/
theorem getComponentProps_resolved_props_witness :
    lookupField [(("type"), JsVal.vfun 0 ("F")
        [(("defaultProps"), .vobj [(("a"), .vstr ("d")), (("children"), .vstr ("inh"))])]),
      (("props"), .vobj [(("a"), .vstr ("p"))]), (("children"), .varr [])] ("type") =
      some (.vfun 0 ("F")
        [(("defaultProps"), .vobj [(("a"), .vstr ("d")), (("children"), .vstr ("inh"))])]) ∧
    truthy (JsVal.varr []) = true ∧
    (∃ rfs, getComponentProps (.vobj [(("type"), JsVal.vfun 0 ("F")
        [(("defaultProps"), .vobj [(("a"), .vstr ("d")), (("children"), .vstr ("inh"))])]),
      (("props"), .vobj [(("a"), .vstr ("p"))]), (("children"), .varr [])]) =
        .ok (.vobj rfs) ∧
      lookupField rfs ("children") = some (.varr []) ∧
      (∀ k, (k == ("children")) = false →
        lookupField rfs k =
          (lookupField [(("a"), JsVal.vstr ("p"))] k).elim
            (lookupField [(("a"), JsVal.vstr ("d")), (("children"), JsVal.vstr ("inh"))] k)
            some)) := by
  refine ⟨rfl, rfl, ?_⟩
  exact getComponentProps_resolved_props _ _ _ _ 0 ("F") (.varr [])
    rfl rfl rfl rfl rfl (by decide) (by decide)

/-- Witness for C6 at a concrete container: previous children empty, next
children two text nodes — update materializes and appends both in order. -/
theorem update_child_cases_witness :
    expandTree envEmpty 1 true sampleNext = .ok sampleNext ∧
    renderElementList envEmpty 1 [.vstr ("a"), .vstr ("b")] =
      .ok [.textNode ("a"), .textNode ("b")] ∧
    update envEmpty 1 (Container.mk (some samplePrev) sampleNext)
        (.element ("div") [] [] []) =
      (.element ("div") [] [] [.textNode ("a"), .textNode ("b")], none) := by
  have h2 : expandTree envEmpty 1 true sampleNext = .ok sampleNext := by
    rw [show sampleNext = JsVal.vobj [(("type"), .vstr ("div")), (("props"), .vnull),
        (("children"), .varr [.vstr ("a"), .vstr ("b")])] from rfl,
       expandTree_element envEmpty 1 true _ (by rfl)]
    simp [getPropD, lookupField, jsToArray, expandTreeList_cons, expandTreeList_nil,
          expandTree_literal, isLiteralNode, isTextNode, isEmptyNode, jsTypeof,
          looseEqNull, Except.bind, Except.map, setField]
  have hts : renderElementList envEmpty 1 [.vstr ("a"), .vstr ("b")] =
      .ok [.textNode ("a"), .textNode ("b")] := by
    simp [renderElementList_cons, renderElementList_nil, renderElement_text,
          isTextNode, jsTypeof, jsToString, Except.bind, Except.map]
  have hmain := (update_child_cases envEmpty 1
      (Container.mk (some samplePrev) sampleNext) (.element ("div") [] [] [])
      samplePrev sampleNext (.vobj []) .vnull [] [] [.vstr ("a"), .vstr ("b")]
      rfl h2 rfl rfl rfl rfl rfl rfl).2.2.1 rfl
      [.textNode ("a"), .textNode ("b")] hts
  refine ⟨h2, hts, ?_⟩
  rw [hmain]
  rfl

/-- Witness for C7: a component whose function throws during update's
re-expansion; the exception propagates and the target element is unchanged. -/
theorem update_atomic_on_expansion_throw_witness :
    expandTree envThrow 1 true sampleComp = .error (.userThrow (.vstr ("boom"))) ∧
    update envThrow 1 (Container.mk (some samplePrev) sampleComp)
        (.element ("div") [(("id"), ("x"))] [] [.textNode ("t")]) =
      (.element ("div") [(("id"), ("x"))] [] [.textNode ("t")],
        some (.userThrow (.vstr ("boom")))) := by
  have h2 : expandTree envThrow 1 true sampleComp =
      .error (.userThrow (.vstr ("boom"))) := by
    rw [show sampleComp = JsVal.vobj [(("type"), .vfun 0 ("App") []),
        (("props"), .vnull), (("children"), .varr [])] from rfl,
       show (1 : Nat) = 0 + 1 from rfl,
       expandTree_component envThrow 0 true
         [(("type"), .vfun 0 ("App") []), (("props"), .vnull),
          (("children"), .varr [])] 0 ("App") [] rfl]
    have hg : getComponentProps (JsVal.vobj [(("type"), .vfun 0 ("App") []),
        (("props"), .vnull), (("children"), .varr [])]) =
        .ok (.vobj [(("children"), .varr [])]) := rfl
    rw [hg]
    simp [envThrow, Except.bind]
  exact ⟨h2, update_atomic_on_expansion_throw envThrow 1 _ _ samplePrev _ rfl h2⟩

/-- Witness for C8 at two distinct function references and at an identical
one. -/
theorem updateElementProps_listener_swap_witness :
    jsStrictEq (.vfun 0 ("f") []) (.vfun 1 ("g") []) = false ∧
    updateElementProps (.vobj [(("onClick"), .vfun 1 ("g") [])])
        (.vobj [(("onClick"), .vfun 0 ("f") [])]) =
      .ok [.removeListener ("click") (.vfun 0 ("f") []),
           .addListener ("click") (.vfun 1 ("g") [])] ∧
    jsStrictEq (JsVal.vfun 0 ("f") []) (.vfun 0 ("f") []) = true ∧
    updateElementProps (.vobj [(("onClick"), .vfun 0 ("f") [])])
        (.vobj [(("onClick"), .vfun 0 ("f") [])]) = .ok [] := by
  exact ⟨rfl, updateElementProps_listener_swap.1 _ _ rfl, rfl,
    updateElementProps_listener_swap.2 _ rfl⟩

/-- Witness for C9 at a child carrying a truthy explicit key. -/
theorem computeKey_cases_witness :
    (truthy (JsVal.vobj [(("type"), .vstr ("div")),
        (("props"), .vobj [(("key"), .vstr ("k1"))]), (("children"), .varr [])]) &&
      truthy (getPropD (JsVal.vobj [(("type"), .vstr ("div")),
        (("props"), .vobj [(("key"), .vstr ("k1"))]), (("children"), .varr [])]) ("props")) &&
      truthy (getPropD (getPropD (JsVal.vobj [(("type"), .vstr ("div")),
        (("props"), .vobj [(("key"), .vstr ("k1"))]), (("children"), .varr [])]) ("props"))
        ("key"))) = true ∧
    computeKey (JsVal.vobj [(("type"), .vstr ("div")),
        (("props"), .vobj [(("key"), .vstr ("k1"))]), (("children"), .varr [])]) 3 =
      .vstr ("k1") := by
  have h := (computeKey_cases (JsVal.vobj [(("type"), .vstr ("div")),
      (("props"), .vobj [(("key"), .vstr ("k1"))]), (("children"), .varr [])]) 3).1 rfl
  exact ⟨rfl, h.trans rfl⟩

end React
